import Mathlib

/-!
Verification development for TMSim (a 1/2-tape Turing-machine simulator).

The definitions below are a shallow embedding of the computational core of
`TMSim.py`: the sparse `Tape`, the `Instruction` record, the `Program` rule
store with its tiered wildcard lookup and line-oriented parser, and the
`Machine` execution engine.  Python dictionaries are embedded as association
lists (`List (key × value)`) with dict-style update (overwrite in place when
the key is present, append otherwise); dictionary membership/`get` is
`List.lookup`.  Python strings are Lean `String`s; symbols are the
one-character strings the program actually stores.  The GUI classes
(`TapeCanvas`, `App`) are outside the embedded core: they only drive
`reset`/`step` and render state.
-/

/-- The reserved blank symbol, `BLANK = "_"` in the source. -/
def BLANK : String := "_"

/-- Python's `\s` / `str.strip` whitespace class. -/
def isPyWS (c : Char) : Bool :=
  c = ' ' ∨ c = '\t' ∨ c = '\n' ∨ c = '\r' ∨ c = '\x0b' ∨ c = '\x0c'

/-- Python `s.lower()` (ASCII case mapping suffices for this program). -/
def strLower (s : String) : String :=
  String.mk (s.data.map Char.toLower)

/-- Python `s.strip()`: drop whitespace from both ends. -/
def strTrim (s : String) : String :=
  String.mk (((s.data.dropWhile isPyWS).reverse.dropWhile isPyWS).reverse)

/-- Python `s.startswith(pre)`. -/
def strStartsWith (s pre : String) : Bool :=
  pre.data.isPrefixOf s.data

/-- Helper for `strTokens`: accumulate the current word (reversed). -/
def tokensAux : List Char → List Char → List String
  | [], acc => if acc.isEmpty then [] else [String.mk acc.reverse]
  | c :: cs, acc =>
    if isPyWS c then
      if acc.isEmpty then tokensAux cs []
      else String.mk acc.reverse :: tokensAux cs []
    else tokensAux cs (c :: acc)

/-- Python `s.split()` with no arguments: the maximal runs of
non-whitespace characters, in order. -/
def strTokens (s : String) : List String :=
  tokensAux s.data []

/-- The `MOVE` dictionary: head displacement per move token.  A key outside
the table yields `none` (the source raises `ValueError` there; the engine
only ever passes parser-validated moves, so that branch is unreachable). -/
def MOVE (m : String) : Option Int :=
  if m = "l" then some (-1)
  else if m = "r" then some 1
  else if m = "*" then some 0
  else if m = "s" then some 0
  else if m = "n" then some 0
  else none

/-- `Instruction` dataclass: one parsed rule.  `read`/`write`/`move` are the
per-tape tuples (length = tape count); `line_no` is the 0-based index the
source constructor receives (`i` in `parse_from_text`). -/
structure Instruction where
  cur_state : String
  read : List String
  write : List String
  move : List String
  next_state : String
  breakpoint : Bool
  line_no : Nat
deriving DecidableEq, Repr

/-- `Tape`: sparse cells (dict int → str), a blank symbol, and a head. -/
structure Tape where
  blank : String
  cells : List (Int × String)
  head : Int
deriving DecidableEq, Repr

/-- Dict-style assignment `l[k] = v`: overwrite in place if the key is
present, else append at the end (Python dicts preserve insertion order). -/
def assocSet {κ α : Type} [DecidableEq κ] (l : List (κ × α)) (k : κ) (v : α) :
    List (κ × α) :=
  if l.any (fun pr => pr.1 = k) then
    l.map (fun pr => if pr.1 = k then (k, v) else pr)
  else l ++ [(k, v)]

/-- `Tape.reset`: clear all cells, head to 0. -/
def Tape.reset (t : Tape) : Tape :=
  { t with cells := [], head := 0 }

/-- `Tape.read`: `cells.get(head, blank)`. -/
def Tape.read (t : Tape) : String :=
  (t.cells.lookup t.head).getD t.blank

/-- `Tape.write`: writing the blank pops the cell, otherwise store. -/
def Tape.write (t : Tape) (sym : String) : Tape :=
  if sym = t.blank then
    { t with cells := t.cells.filter (fun pr => pr.1 ≠ t.head) }
  else
    { t with cells := assocSet t.cells t.head sym }

/-- `Tape.move`: lowercase the token and shift the head by its `MOVE`
displacement (`getD 0` stands for the unreachable `ValueError` branch). -/
def Tape.move (t : Tape) (m : String) : Tape :=
  { t with head := t.head + ((MOVE (strLower m)).getD 0) }

/-- Embedding of Python `s.replace(" ", blank)` for the one-character
pattern `" "`: every space is replaced by the characters of `blank`. -/
def replaceSpaces (blank : String) (s : String) : String :=
  String.mk (s.data.flatMap (fun c => if c = ' ' then blank.data else [c]))

/-- The cell-filling loop of `load_leftmost`: `for i, ch in enumerate(s)`,
skipping blank characters, storing the rest at consecutive positions. -/
def loadCells (blank : String) : List Char → Nat → List (Int × String)
  | [], _ => []
  | ch :: rest, i =>
    if String.singleton ch = blank then loadCells blank rest (i + 1)
    else ((i : Int), String.singleton ch) :: loadCells blank rest (i + 1)

/-- `Tape.load_leftmost`: spaces become blanks, an empty word becomes a
single blank, the tape is reset and refilled, head at 0. -/
def Tape.load_leftmost (t : Tape) (s : String) : Tape :=
  let s1 := replaceSpaces t.blank s
  let s2 := if s1 = "" then t.blank else s1
  { t with cells := loadCells t.blank s2.data 0, head := 0 }

/-- The 1-tape rule index `_map_1 : state → read-symbol → rule list`. -/
abbrev Map1 := List (String × List (String × List Instruction))

/-- The 2-tape rule index `_map_2 : state → (r1, r2) → rule list`. -/
abbrev Map2 := List (String × List ((String × String) × List Instruction))

/-- `Program`: tape count, blank, and the two rule indices.  The source
also keeps `source_text` (unused by the core semantics) and asserts
`tapes ∈ {1, 2}` in `__init__`. -/
structure Program where
  tapes : Nat
  blank : String
  map_1 : Map1
  map_2 : Map2
deriving DecidableEq, Repr

/-- `Program.clear`: empty both rule indices. -/
def Program.cleared (p : Program) : Program :=
  { p with map_1 := [], map_2 := [] }

/-- `Program.is_halt_state` (the source's `self` is unused):
`st.strip().lower().startswith("halt")`. -/
def is_halt_state (st : String) : Bool :=
  strStartsWith (strLower (strTrim st)) "halt"

/-- `Program.add`: `setdefault` into the nested dict and append the rule
to its bucket.  `read` is indexed at 0 (and 1 for 2 tapes); the parser
guarantees the tuple has exactly `tapes` entries, so the `getD` defaults
are never consulted. -/
def Program.add (p : Program) (ins : Instruction) : Program :=
  if p.tapes = 1 then
    let key := ins.read.getD 0 ""
    let inner := (p.map_1.lookup ins.cur_state).getD []
    let bucket := (inner.lookup key).getD []
    { p with map_1 := assocSet p.map_1 ins.cur_state (assocSet inner key (bucket ++ [ins])) }
  else
    let key := (ins.read.getD 0 "", ins.read.getD 1 "")
    let inner := (p.map_2.lookup ins.cur_state).getD []
    let bucket := (inner.lookup key).getD []
    { p with map_2 := assocSet p.map_2 ins.cur_state (assocSet inner key (bucket ++ [ins])) }

/-- `Program._get_1`: the four-tier wildcard lookup, in source order:
`(state, sym)`, `(state, *)`, `(*, sym)`, `(*, *)`, else no match. -/
def Program.get_1 (p : Program) (state sym : String) : List Instruction :=
  match (p.map_1.lookup state).bind (fun m => m.lookup sym) with
  | some r => r
  | none =>
    match (p.map_1.lookup state).bind (fun m => m.lookup "*") with
    | some r => r
    | none =>
      match (p.map_1.lookup "*").bind (fun m => m.lookup sym) with
      | some r => r
      | none => ((p.map_1.lookup "*").bind (fun m => m.lookup "*")).getD []

/-- `pick_for_state` inside `Program._get_2`: one pass over a single
state's table — exact `(r1, r2)`, else the concatenation of the
`(r1, *)` and `(*, r2)` buckets if non-empty, else `(*, *)`.  An absent
or empty table yields `[]` (`if not m`). -/
def pickForState (map2 : Map2) (r1 r2 : String) (st : String) : List Instruction :=
  match map2.lookup st with
  | none => []
  | some m =>
    if m.isEmpty then []
    else
      match m.lookup (r1, r2) with
      | some l => l
      | none =>
        let tier2 := ((m.lookup (r1, "*")).getD []) ++ ((m.lookup ("*", r2)).getD [])
        if tier2.isEmpty then (m.lookup ("*", "*")).getD [] else tier2

/-- `Program._get_2`: the state-specific pass, and only if it is empty the
same pass with the wildcard state. -/
def Program.get_2 (p : Program) (state r1 r2 : String) : List Instruction :=
  let res := pickForState p.map_2 r1 r2 state
  if res.isEmpty then pickForState p.map_2 r1 r2 "*" else res

/-- `Program.get_next`: dispatch on the tape count.  `reads` always has
one entry per tape, so the `getD` defaults are never consulted. -/
def Program.get_next (p : Program) (state : String) (reads : List String) :
    List Instruction :=
  if p.tapes = 1 then p.get_1 state (reads.getD 0 "")
  else p.get_2 state (reads.getD 0 "") (reads.getD 1 "")

/-- `_strip_comment`: `line.split(";", 1)[0].strip()` — the text before
the first `;`, stripped. -/
def stripComment (line : String) : String :=
  strTrim (String.mk (line.data.takeWhile (fun c => c ≠ ';')))

/-- The reserved directive keywords of `directive_re`. -/
def directiveKeywords : List String :=
  ["tapes", "blank", "start", "initial_tape", "initial_state", "nondet", "oneway"]

/-- `directive_re.match(raw_stripped)`: case-insensitively, an optional
run of whitespace (empty after `strip`), a reserved keyword, optional
whitespace, then a colon. -/
def isDirective (s : String) : Bool :=
  let t := (strLower s).data
  directiveKeywords.any (fun k =>
    k.data.isPrefixOf t &&
      ((t.drop k.data.length).dropWhile isPyWS).headD ' ' = ':')

/-- Python `line.split()`: split on whitespace, discarding empty pieces. -/
def tokens (line : String) : List String :=
  strTokens line

/-- The per-line rule construction of `parse_from_text`, on the token list
of a non-comment, non-directive line; `i` is the 0-based line index.
Returns the parse-error message or the constructed `Instruction`. -/
def parseRule (tapes : Nat) (i : Nat) (toks : List String) :
    Except String Instruction :=
  if tapes = 1 then
    match toks with
    | [cur, cs, ns, d, st] =>
      if cs.length ≠ 1 ∨ ns.length ≠ 1 then
        .error ("Line " ++ toString (i + 1) ++ ": symbols must be single characters")
      else if ¬ ((strLower d) = "l" ∨ (strLower d) = "r" ∨ (strLower d) = "*") then
        .error ("Line " ++ toString (i + 1) ++ ": direction must be l, r, or *")
      else
        .ok ⟨cur, [cs], [ns], [(strLower d)], st, false, i⟩
    | [cur, cs, ns, d, st, t6] =>
      if cs.length ≠ 1 ∨ ns.length ≠ 1 then
        .error ("Line " ++ toString (i + 1) ++ ": symbols must be single characters")
      else if ¬ ((strLower d) = "l" ∨ (strLower d) = "r" ∨ (strLower d) = "*") then
        .error ("Line " ++ toString (i + 1) ++ ": direction must be l, r, or *")
      else
        .ok ⟨cur, [cs], [ns], [(strLower d)], st, t6 = "!", i⟩
    | _ => .error ("Line " ++ toString (i + 1) ++ ": expected 5 or 6 tokens for 1-tape rule")
  else
    match toks with
    | [cur, r1, r2, w1, w2, d1, d2, st] =>
      if r1.length ≠ 1 ∨ r2.length ≠ 1 ∨ w1.length ≠ 1 ∨ w2.length ≠ 1 then
        .error ("Line " ++ toString (i + 1) ++ ": symbols must be single characters")
      else if ¬ ((strLower d1) = "l" ∨ (strLower d1) = "r" ∨ (strLower d1) = "*") ∨
              ¬ ((strLower d2) = "l" ∨ (strLower d2) = "r" ∨ (strLower d2) = "*") then
        .error ("Line " ++ toString (i + 1) ++ ": direction must be l, r, or *")
      else
        .ok ⟨cur, [r1, r2], [w1, w2], [(strLower d1), (strLower d2)], st, false, i⟩
    | [cur, r1, r2, w1, w2, d1, d2, st, t9] =>
      if r1.length ≠ 1 ∨ r2.length ≠ 1 ∨ w1.length ≠ 1 ∨ w2.length ≠ 1 then
        .error ("Line " ++ toString (i + 1) ++ ": symbols must be single characters")
      else if ¬ ((strLower d1) = "l" ∨ (strLower d1) = "r" ∨ (strLower d1) = "*") ∨
              ¬ ((strLower d2) = "l" ∨ (strLower d2) = "r" ∨ (strLower d2) = "*") then
        .error ("Line " ++ toString (i + 1) ++ ": direction must be l, r, or *")
      else
        .ok ⟨cur, [r1, r2], [w1, w2], [(strLower d1), (strLower d2)], st, t9 = "!", i⟩
    | _ => .error ("Line " ++ toString (i + 1) ++ ": expected 8 or 9 tokens for 2-tape rule")

/-- The line loop of `parse_from_text`, starting at 0-based index `i`:
skip directives and comment-only lines, otherwise parse and register the
rule; the first malformed line stops the loop with its error message and
the rule store as accumulated so far. -/
def Program.parseFrom (p : Program) (i : Nat) : List String → Program × Option String
  | [] => (p, none)
  | raw :: rest =>
    if isDirective (strTrim raw) then p.parseFrom (i + 1) rest
    else
      let line := stripComment raw
      if line = "" then p.parseFrom (i + 1) rest
      else
        match parseRule p.tapes i (tokens line) with
        | .error e => (p, some e)
        | .ok ins => (p.add ins).parseFrom (i + 1) rest

/-- `Program.parse_from_text` on the list of source lines
(`text.splitlines()`): clear both indices, then run the line loop. -/
def Program.parse_from_text (p : Program) (lines : List String) :
    Program × Option String :=
  p.cleared.parseFrom 0 lines

/-- Halt message `f"Halted (entered state '{state}')."`. -/
def haltEnteredMsg (st : String) : String :=
  "Halted (entered state \x27" ++ st ++ "\x27)."

/-- Halt message `f"Paused at breakpoint (line {ins.line_no+1})."`. -/
def breakpointMsg (lineNo : Nat) : String :=
  "Paused at breakpoint (line " ++ toString (lineNo + 1) ++ ")."

/-- Halt message `f"Halted (no rule for state '{state}' reading {reads})."`
(the read tuple is rendered with Lean list syntax rather than the Python
tuple repr; no claim inspects this text). -/
def noRuleMsg (st : String) (reads : List String) : String :=
  "Halted (no rule for state \x27" ++ st ++ "\x27 reading " ++ toString reads ++ ")."

/-- `Machine`: the execution engine state. -/
structure Machine where
  prog : Option Program
  tapes : List Tape
  state : String
  steps : Nat
  halted : Bool
  halt_msg : String
deriving DecidableEq, Repr

/-- `Machine.__init__`. -/
def Machine.initial : Machine :=
  { prog := none, tapes := [], state := "0", steps := 0, halted := true,
    halt_msg := "Load or type a program, then Reset." }

/-- `Machine.configure`: bind the program and allocate its tapes. -/
def Machine.configure (m : Machine) (p : Program) : Machine :=
  { m with prog := some p,
           tapes := List.replicate p.tapes { blank := BLANK, cells := [], head := 0 } }

/-- `Machine.reset`: reset every tape, load the input word on tape 0,
take the first token of the initial state (default `"0"`), zero the
counter, clear the halt flag and message. -/
def Machine.reset (m : Machine) (input_w : String) (initial_state : String) : Machine :=
  match m.prog with
  | none => { m with halted := true, halt_msg := "No program loaded." }
  | some _ =>
    let ts := m.tapes.map (fun t => { t with blank := BLANK, cells := [], head := 0 })
    let ts := match ts with
      | [] => []
      | t :: rest => t.load_leftmost input_w :: rest
    { m with tapes := ts,
             state := (strTokens (strTrim initial_state)).headD "0",
             steps := 0, halted := false, halt_msg := "" }

/-- `Machine.reads`: the tuple of symbols under the heads. -/
def Machine.reads (m : Machine) : List String :=
  m.tapes.map Tape.read

/-- The `if ins.breakpoint:` block at the end of `Machine.step`: halt with
the breakpoint message. -/
def breakCheck (ins : Instruction) (m : Machine) : Machine :=
  if ins.breakpoint then
    { m with halted := true, halt_msg := breakpointMsg ins.line_no }
  else m

/-- The final `if self.prog.is_halt_state(self.state):` block of
`Machine.step`: halt with the entered-state message (note that the message
assignment is unconditional whenever the new state is a halting label). -/
def haltCheck (m : Machine) : Machine :=
  if is_halt_state m.state then
    { m with halted := true, halt_msg := haltEnteredMsg m.state }
  else m

/-- `Machine.step`: one transition of the engine, returning the applied
instruction (or `none`) together with the successor machine state. -/
def Machine.step (m : Machine) : Option Instruction × Machine :=
  if m.halted then (none, m)
  else
    match m.prog with
    | none => (none, m)
    | some prog =>
      if is_halt_state m.state then
        (none, { m with halted := true, halt_msg := haltEnteredMsg m.state })
      else
        let reads := m.reads
        let choices := prog.get_next m.state reads
        match choices with
        | [] => (none, { m with halted := true, halt_msg := noRuleMsg m.state reads })
        | ins :: _ =>
          let new_state := if ins.next_state = "*" then m.state else ins.next_state
          let tapesW := (m.tapes.zip (reads.zip ins.write)).map
            (fun pr => pr.1.write (if pr.2.2 = "*" then pr.2.1 else pr.2.2))
          let tapesM := (tapesW.zip ins.move).map (fun pr => pr.1.move pr.2)
          let m1 : Machine :=
            { m with tapes := tapesM, state := new_state, steps := m.steps + 1 }
          (some ins, haltCheck (breakCheck ins m1))

/-- Iterated `step`, keeping only the machine state. -/
def Machine.stepN (m : Machine) : Nat → Machine
  | 0 => m
  | n + 1 => (m.step).2.stepN n

/-! ## Specification-side definitions

The following definitions are written from the spec's wording (section 4.3
tier descriptions, section 4.1 `load`) and are compared with the source
embeddings above in the refinement theorems below. -/

/-- Spec §4.3: the first non-empty instruction list among the tiers. -/
def firstNonEmpty : List (List Instruction) → List Instruction
  | [] => []
  | l :: ls => if l.isEmpty then firstNonEmpty ls else l

/-- The instruction list registered at one exact key of the 1-tape index
(empty when the key is absent). -/
def tierList (p : Program) (st sym : String) : List Instruction :=
  ((p.map_1.lookup st).bind (fun m => m.lookup sym)).getD []

/-- Spec §4.3, 1-tape lookup: the first non-empty tier in the order
`(state, sym)`, `(state, *)`, `(*, sym)`, `(*, *)`. -/
def specGet1 (p : Program) (state sym : String) : List Instruction :=
  firstNonEmpty [tierList p state sym, tierList p state "*",
                 tierList p "*" sym, tierList p "*" "*"]

/-- Spec §4.3, one pass of the 2-tape lookup over a single state's table:
an exact `(r1, r2)` entry, if present, is used and stops the pass;
otherwise the concatenation of the `(r1, *)` matches followed by the
`(*, r2)` matches, if non-empty; otherwise the `(*, *)` entry. -/
def specPass2 (m : List ((String × String) × List Instruction)) (r1 r2 : String) :
    List Instruction :=
  match m.lookup (r1, r2) with
  | some exact => exact
  | none =>
    let combined := ((m.lookup (r1, "*")).getD []) ++ ((m.lookup ("*", r2)).getD [])
    if combined.isEmpty then (m.lookup ("*", "*")).getD [] else combined

/-- Spec §4.3, 2-tape lookup: the pass restricted to the live state's own
table, and only if it yields nothing the same pass with state `*`. -/
def specGet2 (p : Program) (state r1 r2 : String) : List Instruction :=
  let pass1 := specPass2 ((p.map_2.lookup state).getD []) r1 r2
  if pass1.isEmpty then specPass2 ((p.map_2.lookup "*").getD []) r1 r2 else pass1

/-- Spec §4.1 `load`: position `p` holds the word's `p`-th character when
that character exists and is neither a space nor the blank; every other
position is blank (an empty word stores nothing). -/
def specLoadCell (w : String) (p : Int) : Option String :=
  if p < 0 then none
  else
    match w.data[p.toNat]? with
    | none => none
    | some c => if c = ' ' ∨ c = '_' then none else some (String.singleton c)

/-- Well-formedness of the 1-tape index: every registered bucket is
non-empty.  `Program.add` only ever appends to a bucket, so every store
built through `add`/`parse_from_text` satisfies this. -/
def Program.wf1 (p : Program) : Bool :=
  p.map_1.all (fun pr => pr.2.all (fun b => !b.2.isEmpty))

/-- The tape operations of the public `Tape` interface (claim C7). -/
inductive TapeOp where
  | write (sym : String)
  | load (w : String)
  | move (m : String)
  | reset
deriving DecidableEq, Repr

/-- Apply one tape operation. -/
def applyOp (t : Tape) : TapeOp → Tape
  | .write sym => t.write sym
  | .load w => t.load_leftmost w
  | .move m => t.move m
  | .reset => t.reset

/-- Apply a sequence of tape operations, left to right. -/
def applyOps (t : Tape) (ops : List TapeOp) : Tape :=
  ops.foldl applyOp t

/-- Sparseness: every stored cell holds a non-blank symbol. -/
def Sparse (t : Tape) : Prop :=
  ∀ pr ∈ t.cells, pr.2 ≠ t.blank

/-! ## Concrete fixtures used by witnesses and counterexamples -/

/-- A fresh 1-tape program, `Program(tapes=1)`. -/
def emptyProg1 : Program := { tapes := 1, blank := BLANK, map_1 := [], map_2 := [] }

/-- A fresh 2-tape program, `Program(tapes=2)`. -/
def emptyProg2 : Program := { tapes := 2, blank := BLANK, map_1 := [], map_2 := [] }

/-- A fresh tape, `Tape(BLANK)`. -/
def tape0 : Tape := { blank := BLANK, cells := [], head := 0 }

/-- The three rule lines of `DEFAULT_PROGRAM` (claim C5's program). -/
def progC5 : Program :=
  (emptyProg1.parse_from_text ["0 0 0 r 0", "0 1 1 r 0", "0 _ _ * halt"]).1

/-- The C5 machine: `progC5` configured and reset on input `"101"`,
initial state `"0"`. -/
def mC5 : Machine := (Machine.initial.configure progC5).reset "101" "0"

/-- A one-rule program whose only rule is breakpoint-flagged and enters
state `halt` (claim C1's scenario). -/
def progC1 : Program := (emptyProg1.parse_from_text ["0 _ _ * halt !"]).1

/-- The C1 machine: `progC1` on the empty input. -/
def mC1 : Machine := (Machine.initial.configure progC1).reset "" "0"

/-- The instruction parsed from `"0 _ _ * halt !"` (line index 0). -/
def insC1 : Instruction := ⟨"0", ["_"], ["_"], ["*"], "halt", true, 0⟩

/-- The instruction parsed from `"0 1 1 r 0"` (line index 1 of `progC5`). -/
def insC5b : Instruction := ⟨"0", ["1"], ["1"], ["r"], "0", false, 1⟩

/-- A one-line valid prefix used in the parse witnesses. -/
def preOne : List String := ["0 0 0 r 0"]

/-- The instruction parsed from `"1 a b l 2"` at line index 1. -/
def insC9 : Instruction := ⟨"1", ["a"], ["b"], ["l"], "2", false, 1⟩

/-! ## Helper lemmas -/

theorem lookup_mem {α β : Type} [BEq α] [LawfulBEq α] {l : List (α × β)} {k : α} {v : β}
    (h : l.lookup k = some v) : (k, v) ∈ l := by
  induction l with
  | nil => cases h
  | cons hd tl ih =>
    obtain ⟨a, b⟩ := hd
    rw [List.lookup] at h
    cases hbeq : (k == a) with
    | true =>
      rw [hbeq] at h
      cases h
      have : k = a := eq_of_beq hbeq
      subst this
      exact List.mem_cons_self _ _
    | false =>
      rw [hbeq] at h
      exact List.mem_cons_of_mem _ (ih h)

theorem pickForState_eq_specPass2 (map2 : Map2) (r1 r2 st : String) :
    pickForState map2 r1 r2 st = specPass2 ((map2.lookup st).getD []) r1 r2 := by
  unfold pickForState specPass2
  rcases h : map2.lookup st with _ | m
  · simp [List.lookup]
  · simp only [Option.getD_some]
    by_cases hm : m.isEmpty
    · have : m = [] := by simpa using hm
      subst this
      simp [List.lookup]
    · simp [hm]

theorem breakCheck_state (ins : Instruction) (m : Machine) :
    (breakCheck ins m).state = m.state := by
  unfold breakCheck; split <;> rfl

theorem haltCheck_state (m : Machine) : (haltCheck m).state = m.state := by
  unfold haltCheck; split <;> rfl

theorem haltCheck_of_halt (m : Machine) (h : is_halt_state m.state = true) :
    haltCheck m = { m with halted := true, halt_msg := haltEnteredMsg m.state } := by
  unfold haltCheck; rw [if_pos h]

theorem get_1_matches_spec (p : Program) (state sym : String) (hwf : p.wf1 = true) :
    p.get_1 state sym = specGet1 p state sym := by
  have hne : ∀ {st : String} {mm : List (String × List Instruction)}
      {sy : String} {l : List Instruction},
      p.map_1.lookup st = some mm → mm.lookup sy = some l → l.isEmpty = false := by
    intro st mm sy l h1 h2
    have hm1 := lookup_mem h1
    have hall := List.all_eq_true.mp hwf _ hm1
    have hm2 := lookup_mem h2
    have hb := List.all_eq_true.mp hall _ hm2
    simpa using hb
  rcases h1 : p.map_1.lookup state with _ | m1
  · rcases h2 : p.map_1.lookup "*" with _ | m2
    · simp [Program.get_1, specGet1, tierList, firstNonEmpty, h1, h2]
    · rcases h3 : m2.lookup sym with _ | l3
      · rcases h4 : m2.lookup "*" with _ | l4
        · simp [Program.get_1, specGet1, tierList, firstNonEmpty, h1, h2, h3, h4]
        · have hb := hne h2 h4
          simp [Program.get_1, specGet1, tierList, firstNonEmpty, h1, h2, h3, h4, hb]
      · have hb := hne h2 h3
        simp [Program.get_1, specGet1, tierList, firstNonEmpty, h1, h2, h3, hb]
  · rcases h3 : m1.lookup sym with _ | l3
    · rcases h4 : m1.lookup "*" with _ | l4
      · rcases h2 : p.map_1.lookup "*" with _ | m2
        · simp [Program.get_1, specGet1, tierList, firstNonEmpty, h1, h2, h3, h4]
        · rcases h5 : m2.lookup sym with _ | l5
          · rcases h6 : m2.lookup "*" with _ | l6
            · simp [Program.get_1, specGet1, tierList, firstNonEmpty, h1, h2, h3, h4, h5, h6]
            · have hb := hne h2 h6
              simp [Program.get_1, specGet1, tierList, firstNonEmpty,
                    h1, h2, h3, h4, h5, h6, hb]
          · have hb := hne h2 h5
            simp [Program.get_1, specGet1, tierList, firstNonEmpty, h1, h2, h3, h4, h5, hb]
      · have hb := hne h1 h4
        simp [Program.get_1, specGet1, tierList, firstNonEmpty, h1, h3, h4, hb]
    · have hb := hne h1 h3
      simp [Program.get_1, specGet1, tierList, firstNonEmpty, h1, h3, hb]

theorem step_applies_first_choice (m : Machine) (ins : Instruction) (m' : Machine)
    (h : m.step = (some ins, m')) (pr : Program) (hpr : m.prog = some pr) :
    (pr.get_next m.state m.reads).head? = some ins := by
  unfold Machine.step at h
  split at h
  · simp at h
  · split at h
    · simp at h
    · rename_i xopt prog hprog
      split at h
      · simp at h
      · simp only [] at h
        split at h
        · simp at h
        · rename_i choices ins0 tail heq
          rw [Prod.mk.injEq] at h
          obtain ⟨hins, -⟩ := h
          injection hins with hins'
          subst hins'
          rw [hprog] at hpr
          injection hpr with hpe
          subst hpe
          rw [heq]
          rfl

theorem parseFrom_nil (p : Program) (i : Nat) : p.parseFrom i [] = (p, none) := rfl

theorem parseFrom_cons (p : Program) (i : Nat) (raw : String) (rest : List String) :
    p.parseFrom i (raw :: rest) =
      if isDirective (strTrim raw) then p.parseFrom (i + 1) rest
      else if stripComment raw = "" then p.parseFrom (i + 1) rest
      else
        match parseRule p.tapes i (tokens (stripComment raw)) with
        | .error e => (p, some e)
        | .ok ins => (p.add ins).parseFrom (i + 1) rest := rfl

theorem parseFrom_ok_append (p : Program) (i : Nat) (xs ys : List String)
    (q : Program) (h : p.parseFrom i xs = (q, none)) :
    p.parseFrom i (xs ++ ys) = q.parseFrom (i + xs.length) ys := by
  induction xs generalizing p i with
  | nil =>
    rw [parseFrom_nil] at h
    injection h with h1 h2
    subst h1
    simp
  | cons x xs ih =>
    rw [List.cons_append]
    rw [parseFrom_cons] at h ⊢
    have hlen : i + 1 + xs.length = i + (x :: xs).length := by
      rw [List.length_cons]; omega
    by_cases hd : isDirective (strTrim x) = true
    · rw [if_pos hd] at h ⊢
      rw [ih _ _ h, hlen]
    · rw [if_neg hd] at h ⊢
      by_cases hc : stripComment x = ""
      · rw [if_pos hc] at h ⊢
        rw [ih _ _ h, hlen]
      · rw [if_neg hc] at h ⊢
        split at h
        · exact absurd h (by simp)
        · rw [ih _ _ h, hlen]

theorem parseFrom_error_append (p : Program) (i : Nat) (xs ys : List String)
    (q : Program) (e : String) (h : p.parseFrom i xs = (q, some e)) :
    p.parseFrom i (xs ++ ys) = (q, some e) := by
  induction xs generalizing p i with
  | nil =>
    rw [parseFrom_nil] at h
    injection h with h1 h2
    exact absurd h2 (by simp)
  | cons x xs ih =>
    rw [List.cons_append]
    rw [parseFrom_cons] at h ⊢
    by_cases hd : isDirective (strTrim x) = true
    · rw [if_pos hd] at h ⊢
      exact ih _ _ h
    · rw [if_neg hd] at h ⊢
      by_cases hc : stripComment x = ""
      · rw [if_pos hc] at h ⊢
        exact ih _ _ h
      · rw [if_neg hc] at h ⊢
        split at h
        · exact h
        · exact ih _ _ h

theorem parseFrom_single_error_fst (p : Program) (i : Nat) (l e : String)
    (h : (p.parseFrom i [l]).2 = some e) : p.parseFrom i [l] = (p, some e) := by
  rw [parseFrom_cons] at h ⊢
  by_cases hd : isDirective (strTrim l) = true
  · rw [if_pos hd] at h ⊢
    rw [parseFrom_nil] at h
    exact absurd h (by simp)
  · rw [if_neg hd] at h ⊢
    by_cases hc : stripComment l = ""
    · rw [if_pos hc] at h ⊢
      rw [parseFrom_nil] at h
      exact absurd h (by simp)
    · rw [if_neg hc] at h ⊢
      split at h
      · simp only [] at h
        injection h with h'
        rw [h']
      · rw [parseFrom_nil] at h
        exact absurd h (by simp)

theorem parseRule_ok_line_no (tapes i : Nat) (toks : List String) (ins : Instruction)
    (h : parseRule tapes i toks = .ok ins) : ins.line_no = i := by
  unfold parseRule at h
  split at h
  · split at h
    · split at h
      · exact Except.noConfusion h
      · split at h
        · exact Except.noConfusion h
        · injection h with h'
          subst h'
          rfl
    · split at h
      · exact Except.noConfusion h
      · split at h
        · exact Except.noConfusion h
        · injection h with h'
          subst h'
          rfl
    · exact Except.noConfusion h
  · split at h
    · split at h
      · exact Except.noConfusion h
      · split at h
        · exact Except.noConfusion h
        · injection h with h'
          subst h'
          rfl
    · split at h
      · exact Except.noConfusion h
      · split at h
        · exact Except.noConfusion h
        · injection h with h'
          subst h'
          rfl
    · exact Except.noConfusion h

theorem mem_assocSet {κ α : Type} [DecidableEq κ] {l : List (κ × α)} {k : κ} {v : α}
    {pr : κ × α} (h : pr ∈ assocSet l k v) : pr ∈ l ∨ pr = (k, v) := by
  unfold assocSet at h
  split at h
  · rcases List.mem_map.mp h with ⟨q, hq, hqe⟩
    by_cases hk : q.1 = k
    · rw [if_pos hk] at hqe
      right; exact hqe.symm
    · rw [if_neg hk] at hqe
      left; exact hqe ▸ hq
  · rcases List.mem_append.mp h with h1 | h1
    · left; exact h1
    · right; simpa using h1

theorem lookup_filter_ne (l : List (Int × String)) (k : Int) :
    (l.filter (fun pr => pr.1 ≠ k)).lookup k = none := by
  induction l with
  | nil => rfl
  | cons hd tl ih =>
    by_cases hk : hd.1 = k
    · simpa [List.filter, hk] using ih
    · rw [List.filter]
      have hcond : (decide (hd.1 ≠ k)) = true := by simp [hk]
      rw [hcond]
      simp only []
      rw [List.lookup]
      have hbeq : (k == hd.1) = false := by
        simp [Ne.symm hk]
      rw [hbeq]
      exact ih

theorem loadCells_ne_blank (blank : String) (l : List Char) (i : Nat) :
    ∀ pr ∈ loadCells blank l i, pr.2 ≠ blank := by
  induction l generalizing i with
  | nil => intro pr hpr; cases hpr
  | cons c cs ih =>
    intro pr hpr
    unfold loadCells at hpr
    split at hpr
    · exact ih _ pr hpr
    · rename_i hne
      rcases List.mem_cons.mp hpr with h1 | h1
      · subst h1
        exact hne
      · exact ih _ pr h1

theorem sparse_applyOp (t : Tape) (op : TapeOp) (h : Sparse t) : Sparse (applyOp t op) := by
  cases op with
  | write sym =>
    simp only [applyOp]
    unfold Tape.write
    split
    · intro pr hpr
      exact h pr (List.mem_of_mem_filter hpr)
    · rename_i hs
      intro pr hpr
      rcases mem_assocSet hpr with h1 | h1
      · exact h pr h1
      · subst h1
        exact hs
  | load w =>
    simp only [applyOp]
    unfold Tape.load_leftmost
    intro pr hpr
    exact loadCells_ne_blank _ _ _ pr hpr
  | move m =>
    simp only [applyOp]
    intro pr hpr
    exact h pr hpr
  | reset =>
    simp only [applyOp]
    intro pr hpr
    cases hpr

theorem sparse_applyOps (t : Tape) (ops : List TapeOp) (h : Sparse t) :
    Sparse (applyOps t ops) := by
  induction ops generalizing t with
  | nil => exact h
  | cons op ops ih =>
    unfold applyOps
    rw [List.foldl_cons]
    exact ih _ (sparse_applyOp t op h)

theorem singleton_eq_blank (c : Char) : (String.singleton c = BLANK) ↔ c = '_' := by
  constructor
  · intro h
    have h2 : [c] = ['_'] := congrArg String.data h
    exact (List.cons.inj h2).1
  · intro h
    subst h
    rfl

theorem flatMapBlank (l : List Char) :
    (l.flatMap (fun c => if c = ' ' then BLANK.data else [c])) =
      l.map (fun c => if c = ' ' then '_' else c) := by
  induction l with
  | nil => rfl
  | cons c cs ih =>
    rw [List.flatMap_cons, List.map_cons, ih]
    by_cases hc : c = ' '
    · simp only [if_pos hc]
      rfl
    · simp only [if_neg hc]
      rfl

theorem loadCells_lookup (l : List Char) (k : Nat) (p : Int) :
    (loadCells BLANK l k).lookup p =
      if (k : Int) ≤ p then
        match l[(p - k).toNat]? with
        | none => none
        | some c => if c = '_' then none else some (String.singleton c)
      else none := by
  induction l generalizing k with
  | nil =>
    simp only [loadCells, List.lookup, List.getElem?_nil]
    split <;> rfl
  | cons c cs ih =>
    unfold loadCells
    by_cases hb : String.singleton c = BLANK
    · rw [if_pos hb, ih (k + 1)]
      have hc : c = '_' := (singleton_eq_blank c).mp hb
      subst hc
      push_cast
      by_cases h1 : (k : Int) + 1 ≤ p
      · rw [if_pos h1, if_pos (by omega)]
        have hn : (p - (k : Int)).toNat = (p - ((k : Int) + 1)).toNat + 1 := by omega
        rw [hn, List.getElem?_cons_succ]
      · rw [if_neg h1]
        by_cases h0 : (k : Int) ≤ p
        · rw [if_pos h0]
          have hz : (p - (k : Int)).toNat = 0 := by omega
          rw [hz, List.getElem?_cons_zero]
          simp
        · rw [if_neg h0]
    · rw [if_neg hb]
      have hc : ¬ c = '_' := fun hcc => hb ((singleton_eq_blank c).mpr hcc)
      by_cases hpk : p = (k : Int)
      · subst hpk
        rw [List.lookup]
        simp only [beq_self_eq_true]
        rw [if_pos (by omega)]
        have hz : ((k : Int) - k).toNat = 0 := by omega
        rw [hz, List.getElem?_cons_zero]
        simp [hc]
      · rw [List.lookup]
        have hbeq : (p == (k : Int)) = false := by
          simpa using hpk
        rw [hbeq]
        simp only []
        rw [ih (k + 1)]
        push_cast
        by_cases h1 : (k : Int) + 1 ≤ p
        · rw [if_pos h1, if_pos (by omega)]
          have hn : (p - (k : Int)).toNat = (p - ((k : Int) + 1)).toNat + 1 := by omega
          rw [hn, List.getElem?_cons_succ]
        · rw [if_neg h1, if_neg (by omega)]

/-! ## Claim theorems -/

/-- C1 counterexample: on the one-rule program `0 _ _ * halt !`, a single
step applies a breakpoint-flagged instruction whose next state is the
terminal label `halt`, yet the reported reason is the entered-halt-state
message, not the breakpoint message for line 1 — the breakpoint message is
overwritten, refuting the claim that it is kept. -/
theorem breakpoint_then_halt_state_message_cex :
    (Machine.step mC1).1 = some insC1 ∧
    insC1.breakpoint = true ∧
    is_halt_state (Machine.step mC1).2.state = true ∧
    (Machine.step mC1).2.halted = true ∧
    (Machine.step mC1).2.halt_msg = haltEnteredMsg "halt" ∧
    (Machine.step mC1).2.halt_msg ≠ breakpointMsg 0 := by decide

/-- C1 (amended): when a step applies a breakpoint-flagged instruction and
the resulting state is also a terminal (halt-prefixed) label, the engine
halts, but the final reason is the entered-halt-state message: the halt-state
check overwrites the breakpoint message written just before it. -/
theorem step_breakpoint_into_halt_state (m : Machine) (ins : Instruction) (m' : Machine)
    (h : m.step = (some ins, m'))
    (hbp : ins.breakpoint = true)
    (hhs : is_halt_state m'.state = true) :
    m'.halted = true ∧ m'.halt_msg = haltEnteredMsg m'.state := by
  unfold Machine.step at h
  split at h
  · simp at h
  · split at h
    · simp at h
    · split at h
      · simp at h
      · simp only [] at h
        split at h
        · simp at h
        · rw [Prod.mk.injEq] at h
          obtain ⟨hins, hm⟩ := h
          injection hins with hins'
          subst hins'
          subst hm
          rw [haltCheck_state] at hhs
          rw [haltCheck_of_halt _ hhs]
          exact ⟨rfl, rfl⟩

/-- C1 witness: the amended theorem applied to the concrete machine `mC1`,
whose single step applies the breakpoint rule into state `halt`. -/
theorem step_breakpoint_into_halt_state_witness :
    (Machine.step mC1).2.halted = true ∧
    (Machine.step mC1).2.halt_msg = haltEnteredMsg (Machine.step mC1).2.state :=
  step_breakpoint_into_halt_state mC1 insC1 (Machine.step mC1).2
    (by decide) (by decide) (by decide)

/-- C2: the 2-tape lookup equals the spec's description — a three-tier pass
(exact `(r1,r2)`; else the `(r1,*)` matches followed by the `(*,r2)` matches;
else `(*,*)`) restricted to the live state's table, repeated with the
wildcard state only when that whole pass yields nothing. -/
theorem get_2_two_pass_tiered_lookup (p : Program) (state r1 r2 : String) :
    p.get_2 state r1 r2 = specGet2 p state r1 r2 := by
  unfold Program.get_2 specGet2
  rw [pickForState_eq_specPass2, pickForState_eq_specPass2]

/-- C3: on a well-formed store (every registered bucket non-empty, as
`add` guarantees), the 1-tape lookup returns the first non-empty tier in the
order `(state, sym)`, `(state, *)`, `(*, sym)`, `(*, *)` (empty when all four
are empty), and whenever `step` applies an instruction it is the head — the
first-registered element — of the list the lookup returned. -/
theorem get_1_tier_order_and_first_applied :
    (∀ (p : Program) (state sym : String), p.wf1 = true →
        p.get_1 state sym = specGet1 p state sym) ∧
    (∀ (m : Machine) (ins : Instruction) (m' : Machine),
        m.step = (some ins, m') → ∀ pr : Program, m.prog = some pr →
        (pr.get_next m.state m.reads).head? = some ins) :=
  ⟨get_1_matches_spec, step_applies_first_choice⟩

/-- C3 witness: the tier theorem applied to the concrete program `progC5`
and the first applied instruction of the concrete machine `mC5`. -/
theorem get_1_tier_order_and_first_applied_witness :
    progC5.get_1 "0" "1" = specGet1 progC5 "0" "1" ∧
    (progC5.get_next mC5.state mC5.reads).head? = some insC5b :=
  ⟨get_1_tier_order_and_first_applied.1 progC5 "0" "1" (by decide),
   get_1_tier_order_and_first_applied.2 mC5 insC5b (Machine.step mC5).2
     (by decide) progC5 (by decide)⟩

/-- C4 counterexample: parsing `["0 0 0 r 0", "x"]` raises the error for
line 2, yet the rule store still holds the instruction registered from
line 1 — refuting the claim that no instruction remains installed. -/
theorem parse_error_store_not_empty_cex :
    (emptyProg1.parse_from_text ["0 0 0 r 0", "x"]).2 =
      some "Line 2: expected 5 or 6 tokens for 1-tape rule" ∧
    (emptyProg1.parse_from_text ["0 0 0 r 0", "x"]).1.map_1 ≠ [] := by decide

/-- C4 (amended): on a malformed line, parse stops with that line's error;
the store was cleared at the start of the parse, but it keeps exactly the
instructions registered from the valid lines preceding the malformed one
(the surrounding application discards the partially populated `Program`
object, so no partial program is ever installed in the machine). -/
theorem parse_error_keeps_valid_prefix (p : Program) (pre : List String) (bad : String)
    (rest : List String) (q : Program) (e : String)
    (hpre : Program.parseFrom p.cleared 0 pre = (q, none))
    (hbad : (Program.parseFrom q pre.length [bad]).2 = some e) :
    p.parse_from_text (pre ++ bad :: rest) = (q, some e) := by
  unfold Program.parse_from_text
  have h1 := parseFrom_ok_append p.cleared 0 pre (bad :: rest) q hpre
  rw [Nat.zero_add] at h1
  rw [h1]
  have h2 := parseFrom_single_error_fst q pre.length bad e hbad
  have h3 : (bad :: rest) = [bad] ++ rest := rfl
  rw [h3]
  exact parseFrom_error_append q pre.length [bad] rest q e h2

/-- C4 witness: the amended theorem applied to the concrete failing parse
`["0 0 0 r 0", "x"]`. -/
theorem parse_error_keeps_valid_prefix_witness :
    emptyProg1.parse_from_text (preOne ++ "x" :: []) =
      ((Program.parseFrom emptyProg1.cleared 0 preOne).1,
       some "Line 2: expected 5 or 6 tokens for 1-tape rule") :=
  parse_error_keeps_valid_prefix emptyProg1 preOne "x" []
    (Program.parseFrom emptyProg1.cleared 0 preOne).1
    "Line 2: expected 5 or 6 tokens for 1-tape rule"
    (by decide) (by decide)

/-- C5 counterexample: after exactly 3 steps the machine is still running,
and when it does halt the step counter is 4, not 3 — refuting the claim
that the run halts after 3 steps with counter 3. -/
theorem default_scenario_three_steps_cex :
    (mC5.stepN 3).halted = false ∧
    (mC5.stepN 4).halted = true ∧
    (mC5.stepN 4).steps ≠ 3 := by decide

/-- C5 (amended): running `0 0 0 r 0` / `0 1 1 r 0` / `0 _ _ * halt` on
input `"101"` from state `"0"` halts on the 4th step (the step that applies
the rule entering `halt`) with the entered-halt-state reason for `halt`,
step counter 4, tape contents still exactly 1,0,1 at positions 0,1,2, and
head at position 3; further steps change nothing. -/
theorem default_scenario_runs_four_steps :
    (emptyProg1.parse_from_text ["0 0 0 r 0", "0 1 1 r 0", "0 _ _ * halt"]).2 = none ∧
    (mC5.stepN 3).halted = false ∧ (mC5.stepN 3).steps = 3 ∧
    (mC5.stepN 4).halted = true ∧ (mC5.stepN 4).steps = 4 ∧
    (mC5.stepN 4).state = "halt" ∧
    (mC5.stepN 4).halt_msg = haltEnteredMsg "halt" ∧
    (mC5.stepN 4).tapes.map Tape.cells = [[(0, "1"), (1, "0"), (2, "1")]] ∧
    (mC5.stepN 4).tapes.map Tape.head = [3] ∧
    mC5.stepN 5 = mC5.stepN 4 := by decide

/-- C6 counterexample: a 6-token 1-tape line whose 6th token is `x` (not
`!`) parses without error, registering a non-breakpoint rule; likewise a
9-token 2-tape line with trailing `y` — refuting the claim that such lines
raise a ParseError. -/
theorem six_token_line_accepted_cex :
    (emptyProg1.parse_from_text ["0 a b r 1 x"]).2 = none ∧
    ((emptyProg1.parse_from_text ["0 a b r 1 x"]).1.get_1 "0" "a").map
      Instruction.breakpoint = [false] ∧
    (emptyProg2.parse_from_text ["0 a b c d r r 1 y"]).2 = none := by decide

/-- C6 (amended): a 6-token 1-tape line (resp. a 9-token 2-tape line) with
valid symbols and directions is accepted whatever its final token is; the
breakpoint flag is set exactly when that token is the literal `!`.  Only
token counts other than 5/6 (resp. 8/9) violate the shape check. -/
theorem token_count_shapes_accepted (i : Nat) (cur cs ns d st t6 : String)
    (cur2 r1 r2 w1 w2 d1 d2 st2 t9 : String)
    (hcs : cs.length = 1) (hns : ns.length = 1)
    (hd : strLower d = "l" ∨ strLower d = "r" ∨ strLower d = "*")
    (hr1 : r1.length = 1) (hr2 : r2.length = 1)
    (hw1 : w1.length = 1) (hw2 : w2.length = 1)
    (hd1 : strLower d1 = "l" ∨ strLower d1 = "r" ∨ strLower d1 = "*")
    (hd2 : strLower d2 = "l" ∨ strLower d2 = "r" ∨ strLower d2 = "*") :
    parseRule 1 i [cur, cs, ns, d, st, t6] =
      .ok ⟨cur, [cs], [ns], [strLower d], st, t6 = "!", i⟩ ∧
    parseRule 2 i [cur2, r1, r2, w1, w2, d1, d2, st2, t9] =
      .ok ⟨cur2, [r1, r2], [w1, w2], [strLower d1, strLower d2], st2, t9 = "!", i⟩ := by
  constructor
  · unfold parseRule
    rw [if_pos rfl]
    simp only []
    rw [if_neg (by simp [hcs, hns]), if_neg (by simp; tauto)]
  · unfold parseRule
    rw [if_neg (by omega)]
    simp only []
    rw [if_neg (by simp [hr1, hr2, hw1, hw2]),
        if_neg (by simp; constructor <;> tauto)]

/-- C6 witness: the amended theorem applied to concrete 6- and 9-token
lines whose trailing tokens are not `!`. -/
theorem token_count_shapes_accepted_witness :
    parseRule 1 0 ["q0", "a", "b", "R", "q1", "zz"] =
      .ok ⟨"q0", ["a"], ["b"], [strLower "R"], "q1", ("zz" = "!"), 0⟩ ∧
    parseRule 2 0 ["q0", "a", "b", "c", "d", "L", "R", "q1", "w"] =
      .ok ⟨"q0", ["a", "b"], ["c", "d"], [strLower "L", strLower "R"], "q1",
           ("w" = "!"), 0⟩ :=
  token_count_shapes_accepted 0 "q0" "a" "b" "R" "q1" "zz"
    "q0" "a" "b" "c" "d" "L" "R" "q1" "w"
    (by decide) (by decide) (by decide) (by decide) (by decide)
    (by decide) (by decide) (by decide) (by decide)

/-- C7: after any sequence of write/load/move/reset operations from a
sparse tape, every stored cell holds a non-blank symbol (so a position is
stored exactly when a non-blank symbol is there); in particular writing the
blank at the head leaves the head cell absent and reading back yields the
blank. -/
theorem tape_sparseness_invariant (t : Tape) (ops : List TapeOp) (h : Sparse t) :
    Sparse (applyOps t ops) ∧
    (t.write t.blank).read = t.blank ∧
    ((t.write t.blank).cells.lookup ((t.write t.blank).head)) = none := by
  refine ⟨sparse_applyOps t ops h, ?_, ?_⟩
  · unfold Tape.write Tape.read
    rw [if_pos rfl]
    simp only []
    rw [lookup_filter_ne]
    rfl
  · unfold Tape.write
    rw [if_pos rfl]
    exact lookup_filter_ne _ _

/-- C7 witness: the invariant theorem applied to the fresh tape and the
concrete operation sequence write `1`, move right, write blank. -/
theorem tape_sparseness_invariant_witness :
    Sparse (applyOps tape0 [TapeOp.write "1", TapeOp.move "r", TapeOp.write "_"]) ∧
    (tape0.write tape0.blank).read = tape0.blank ∧
    ((tape0.write tape0.blank).cells.lookup ((tape0.write tape0.blank).head)) = none :=
  tape_sparseness_invariant tape0 [TapeOp.write "1", TapeOp.move "r", TapeOp.write "_"]
    (fun pr hpr => absurd hpr (List.not_mem_nil pr))

/-- C8: for every input word, `load_leftmost` puts the head at 0 and stores
exactly the word's non-blank, non-space characters at consecutive positions
0,1,2,...: position `p` holds the word's `p`-th character when it exists and
is neither a space nor `_`, and is blank (absent) otherwise; an empty word
leaves the tape entirely blank. -/
theorem load_leftmost_matches_spec (t : Tape) (hb : t.blank = BLANK) (w : String) :
    (t.load_leftmost w).head = 0 ∧
    ∀ p : Int, (t.load_leftmost w).cells.lookup p = specLoadCell w p := by
  refine ⟨rfl, ?_⟩
  intro p
  unfold Tape.load_leftmost
  simp only [hb]
  have hdata : (replaceSpaces BLANK w).data =
      w.data.map (fun c => if c = ' ' then '_' else c) := by
    unfold replaceSpaces
    exact flatMapBlank w.data
  by_cases hw : replaceSpaces BLANK w = ""
  · rw [if_pos hw]
    have hwd : w.data = [] := by
      have h2 : (replaceSpaces BLANK w).data = [] := by rw [hw]
      rw [hdata] at h2
      exact List.map_eq_nil_iff.mp h2
    have hload : loadCells BLANK BLANK.data 0 = [] := rfl
    rw [hload]
    unfold specLoadCell
    rw [hwd]
    simp only [List.getElem?_nil]
    split <;> rfl
  · rw [if_neg hw]
    rw [hdata, loadCells_lookup]
    unfold specLoadCell
    by_cases hp : p < 0
    · rw [if_pos hp, if_neg (by push_cast; omega)]
    · rw [if_neg hp, if_pos (by push_cast; omega)]
      have h0 : (p - ((0 : Nat) : Int)).toNat = p.toNat := by push_cast; omega
      rw [h0, List.getElem?_map]
      cases hg : w.data[p.toNat]? with
      | none => rfl
      | some c =>
        simp only [Option.map_some']
        by_cases hsp : c = ' '
        · simp [hsp]
        · by_cases hus : c = '_'
          · simp [hsp, hus]
          · simp [hsp, hus]

/-- C8 witness: the load theorem applied to the fresh tape and the word
`"101"`, instantiated at position 0. -/
theorem load_leftmost_matches_spec_witness :
    (tape0.load_leftmost "101").head = 0 ∧
    (tape0.load_leftmost "101").cells.lookup 0 = specLoadCell "101" 0 :=
  ⟨(load_leftmost_matches_spec tape0 rfl "101").1,
   (load_leftmost_matches_spec tape0 rfl "101").2 0⟩

/-- C9 counterexample: the rule on the 1st line of the input (n = 1) is
stored with `line_no = 0`, not 1 — refuting the claim that the field holds
the 1-based line number. -/
theorem line_no_one_based_cex :
    ((emptyProg1.parse_from_text ["0 a b r 1"]).1.get_1 "0" "a").map
      Instruction.line_no = [0] ∧
    (0 : Nat) ≠ 1 := by decide

/-- C9 (amended): the instruction parsed from the n-th line (1-based)
carries `line_no = n - 1`, the 0-based index of that line; the 1-based
number shown in diagnostics is produced by adding 1 (`line_no + 1`).
Concretely, after an error-free prefix `pre`, the rule parsed from the next
line is registered with `line_no = pre.length`. -/
theorem parsed_line_no_zero_based (p : Program) (pre : List String) (line : String)
    (rest : List String) (q : Program) (ins : Instruction)
    (hpre : Program.parseFrom p.cleared 0 pre = (q, none))
    (hnd : isDirective (strTrim line) = false)
    (hnc : stripComment line ≠ "")
    (hok : parseRule q.tapes pre.length (tokens (stripComment line)) = .ok ins) :
    ins.line_no = pre.length ∧
    p.parse_from_text (pre ++ line :: rest) =
      Program.parseFrom (q.add ins) (pre.length + 1) rest := by
  constructor
  · exact parseRule_ok_line_no _ _ _ _ hok
  · unfold Program.parse_from_text
    have h1 := parseFrom_ok_append p.cleared 0 pre (line :: rest) q hpre
    rw [Nat.zero_add] at h1
    rw [h1, parseFrom_cons]
    rw [if_neg (by simp [hnd]), if_neg hnc, hok]

/-- C9 witness: the amended theorem applied to a concrete two-line program
whose second line (n = 2) produces an instruction with `line_no = 1`. -/
theorem parsed_line_no_zero_based_witness :
    insC9.line_no = preOne.length ∧
    emptyProg1.parse_from_text (preOne ++ "1 a b l 2" :: []) =
      Program.parseFrom ((Program.parseFrom emptyProg1.cleared 0 preOne).1.add insC9)
        (preOne.length + 1) [] :=
  parsed_line_no_zero_based emptyProg1 preOne "1 a b l 2" []
    (Program.parseFrom emptyProg1.cleared 0 preOne).1 insC9
    (by decide) (by decide) (by decide) (by rfl)

/-- C10: whenever `step` returns no instruction (already halted or unbound,
terminal state, or no matching rule), the tapes (contents and heads), the
current state, the step counter and the bound program are all unchanged;
only the halted flag and the halt message may differ. -/
theorem step_none_frame (m m' : Machine) (h : m.step = (none, m')) :
    m'.tapes = m.tapes ∧ m'.state = m.state ∧ m'.steps = m.steps ∧ m'.prog = m.prog := by
  unfold Machine.step at h
  split at h
  · cases h; exact ⟨rfl, rfl, rfl, rfl⟩
  · split at h
    · cases h; exact ⟨rfl, rfl, rfl, rfl⟩
    · split at h
      · cases h; exact ⟨rfl, rfl, rfl, rfl⟩
      · simp only [] at h
        split at h
        · cases h; exact ⟨rfl, rfl, rfl, rfl⟩
        · simp at h

/-- C10 witness: the frame theorem applied to the freshly initialised
machine, which is halted and steps to itself. -/
theorem step_none_frame_witness :
    (Machine.initial.step).2.tapes = Machine.initial.tapes ∧
    (Machine.initial.step).2.state = Machine.initial.state ∧
    (Machine.initial.step).2.steps = Machine.initial.steps ∧
    (Machine.initial.step).2.prog = Machine.initial.prog :=
  step_none_frame Machine.initial (Machine.initial.step).2 (by decide)
